import Mathlib

/-!
Shallow embedding of the repository source file Music_Streaming_System.py.

Modelling conventions:
* Python ints are `Int`, Python floats (only used for wall-clock times and
  simulated sleep durations) are `ℚ`.
* Console prints are not modelled, except for the user visible
  "No playback strategy set!" failure message, which is recorded as an
  `Event.noStrategy` observation because the specification talks about it.
* `strategy.play(song)` (the format specific simulated decode, including its
  internal `time.sleep`) is recorded as a single `Event.played song strategy`
  observation; the `time.sleep` calls made directly by the playlist and
  decorator code are recorded as `Event.sleep` observations with the exact
  durations from the source (0.2 between songs, 0.3 between repeat rounds).
* `random.shuffle` is the CPython in-place Fisher-Yates shuffle; it is embedded
  as `shuffleStep`, parameterised by a stream of raw random draws
  (`Env.randStream`), with `_randbelow(i+1)` modelled as `randStream pos % (i+1)`.
* `time.time()` readings are taken from the oracle `Env.clock`, indexed by the
  number of readings made so far.
-/

namespace MusicStreaming

/-- A basic song entity (class `Song` in the source): title, artist,
duration in seconds, and an audio format tag (default "mp3"). -/
structure Song where
  title : String
  artist : String
  duration : Int
  format_type : String
deriving DecidableEq

/-- The three playback strategies of the source (`MP3Strategy`,
`FLACStrategy`, `StreamingStrategy`); they are stateless, so each is just a
tag. -/
inductive PlaybackStrategy where
  | mp3
  | flac
  | streaming
deriving DecidableEq

/-- The mutable state of the `MusicPlayer` singleton: current song, playing
flag, volume and the active playback strategy (fields set by
`MusicPlayer.__init__`). -/
structure MusicPlayer where
  current_song : Option Song
  is_playing : Bool
  volume : Int
  playback_strategy : Option PlaybackStrategy
deriving DecidableEq

/-- The initial field values assigned by `MusicPlayer.__init__`. -/
def MusicPlayer.initState : MusicPlayer :=
  { current_song := none, is_playing := false, volume := 50,
    playback_strategy := none }

/-- Observable events of a run.  `noStrategy` is the user visible
"No playback strategy set!" message, `played s strat` is the invocation of
`strat.play(s)`, and `sleep d` is a `time.sleep(d)` call made by playlist or
decorator code. -/
inductive Event where
  | noStrategy
  | played (song : Song) (strategy : PlaybackStrategy)
  | sleep (seconds : ℚ)
deriving DecidableEq

/-- `MusicPlayer.set_playback_strategy`. -/
def MusicPlayer.set_playback_strategy (p : MusicPlayer)
    (strategy : PlaybackStrategy) : MusicPlayer :=
  { p with playback_strategy := some strategy }

/-- `MusicPlayer.play`: with no strategy set it prints the failure message and
returns leaving every field unchanged; otherwise it sets `current_song`,
sets `is_playing` and invokes `strategy.play(song)`. -/
def MusicPlayer.play (p : MusicPlayer) (song : Song) :
    MusicPlayer × List Event :=
  match p.playback_strategy with
  | none => (p, [Event.noStrategy])
  | some strat =>
      ({ p with current_song := some song, is_playing := true },
       [Event.played song strat])

/-- `MusicPlayer.pause`. -/
def MusicPlayer.pause (p : MusicPlayer) : MusicPlayer :=
  if p.is_playing then { p with is_playing := false } else p

/-- `MusicPlayer.stop`. -/
def MusicPlayer.stop (p : MusicPlayer) : MusicPlayer :=
  { p with is_playing := false, current_song := none }

/-- `MusicPlayer.set_volume`: stores `max(0, min(100, volume))`. -/
def MusicPlayer.set_volume (p : MusicPlayer) (volume : Int) : MusicPlayer :=
  { p with volume := max 0 (min 100 volume) }

/-- `MusicPlayer.get_status`. -/
def MusicPlayer.get_status (p : MusicPlayer) : String :=
  let status := if p.is_playing then ("Playing") else ("Stopped")
  let song_title :=
    match p.current_song with
    | some s => s.title
    | none => ("None")
  ("Status: ") ++ status ++ (" | Song: ") ++ song_title ++
    (" | Volume: ") ++ toString p.volume

/-- Class level state of `MusicPlayer` used by `__new__`: the `_instance`
class attribute (here the id of the stored object, if any) together with a
count of how many underlying objects have ever been constructed by
`super().__new__`. -/
structure MusicPlayerClass where
  _instance : Option Nat
  created : Nat
deriving DecidableEq

/-- The class state before any access: `_instance = None`, nothing created. -/
def initialClass : MusicPlayerClass :=
  { _instance := none, created := 0 }

/-- `MusicPlayer.__new__`: if `_instance` is already set it is returned,
otherwise a fresh object is constructed, stored in `_instance` and returned.
(The double-checked lock of the source collapses to a single check in this
sequential model.)  The returned `Nat` is the identity of the returned
object. -/
def MusicPlayer.new (cls : MusicPlayerClass) : MusicPlayerClass × Nat :=
  match cls._instance with
  | some i => (cls, i)
  | none =>
      ({ _instance := some cls.created, created := cls.created + 1 },
       cls.created)

/-- A sequence of `n` accesses `MusicPlayer()` starting from class state
`cls`; returns the final class state and the list of returned object
identities in order. -/
def accessSeq (cls : MusicPlayerClass) : Nat → MusicPlayerClass × List Nat
  | 0 => (cls, [])
  | Nat.succ n =>
      let r1 := MusicPlayer.new cls
      let r2 := accessSeq r1.1 n
      (r2.1, r1.2 :: r2.2)

/-- The `strategies` dictionary built by `MusicStreamingSystem.__init__`. -/
def MusicStreamingSystem.strategies : List (String × PlaybackStrategy) :=
  [(("mp3"), PlaybackStrategy.mp3),
   (("flac"), PlaybackStrategy.flac),
   (("streaming"), PlaybackStrategy.streaming)]

/-- Python `round(x, 1)` on the exact rational value `x`: scale by ten,
round half to even (as CPython does), scale back. -/
def roundHalfEven (q : ℚ) : ℤ :=
  let f : ℤ := Int.fdiv q.num (q.den : ℤ)
  let r : ℚ := q - (f : ℚ)
  if r < 1/2 then f
  else if 1/2 < r then f + 1
  else if f % 2 = 0 then f else f + 1

/-- Rounding to one decimal place, `round(x, 1)` of the source. -/
def round1 (q : ℚ) : ℚ :=
  ((roundHalfEven (q * 10) : ℤ) : ℚ) / 10

/-- The strategy selection of `MusicStreamingSystem.demonstrate_strategy`:
`self.strategies.get(song.format_type, default)` with the default being the
entry of `self.strategies` under the key "mp3".  A `dict.get` with a default
is an association list lookup with a fallback; the fallback is the MP3
strategy. -/
def MusicStreamingSystem.select_strategy (song : Song) : PlaybackStrategy :=
  (MusicStreamingSystem.strategies.lookup song.format_type).getD
    ((MusicStreamingSystem.strategies.lookup ("mp3")).getD PlaybackStrategy.mp3)

/-- The playlist hierarchy: a `BasicPlaylist` possibly wrapped in decorators
(`ShuffleDecorator`, `RepeatDecorator` with its `repeat_count`,
`AnalyticsDecorator` with its `play_count` and `total_listening_time`
fields).  Each decorator holds exactly its inner playlist, so chains are
acyclic by construction. -/
inductive Playlist where
  | BasicPlaylist (name : String) (songs : List Song)
  | ShuffleDecorator (inner : Playlist)
  | RepeatDecorator (inner : Playlist) (repeat_count : Int)
  | AnalyticsDecorator (inner : Playlist) (play_count : Int)
      (total_listening_time : ℚ)
deriving DecidableEq

/-- Number of decorator layers around the base playlist. -/
def Playlist.depth : Playlist → Nat
  | .BasicPlaylist _ _ => 0
  | .ShuffleDecorator inner => inner.depth + 1
  | .RepeatDecorator inner _ => inner.depth + 1
  | .AnalyticsDecorator inner _ _ => inner.depth + 1

/-- `get_songs`: `BasicPlaylist.get_songs` returns `self.songs.copy()` (the
same list value here); every decorator delegates to its inner playlist. -/
def Playlist.get_songs : Playlist → List Song
  | .BasicPlaylist _ songs => songs
  | .ShuffleDecorator inner => inner.get_songs
  | .RepeatDecorator inner _ => inner.get_songs
  | .AnalyticsDecorator inner _ _ => inner.get_songs

/-- `add_song`: `BasicPlaylist.add_song` appends; every decorator delegates
to its inner playlist. -/
def Playlist.add_song : Playlist → Song → Playlist
  | .BasicPlaylist name songs, s => .BasicPlaylist name (songs ++ [s])
  | .ShuffleDecorator inner, s => .ShuffleDecorator (inner.add_song s)
  | .RepeatDecorator inner n, s => .RepeatDecorator (inner.add_song s) n
  | .AnalyticsDecorator inner pc tt, s =>
      .AnalyticsDecorator (inner.add_song s) pc tt

/-- Fixed point style decimal formatting used in
`AnalyticsDecorator.get_info` (Python `{:.1f}`). -/
def formatFixed1 (q : ℚ) : String :=
  let n := roundHalfEven (q * 10)
  toString (n / 10) ++ (".") ++ toString (n % 10)

/-- `get_info` of each class: the base playlist reports name, song count and
total duration (the sum of all song durations); each decorator delegates and
appends its own marker, exactly as in the source f-strings. -/
def Playlist.get_info : Playlist → String
  | .BasicPlaylist name songs =>
      ("Playlist: ") ++ name ++ (" | Songs: ") ++ toString songs.length ++
        (" | Duration: ") ++ toString ((songs.map Song.duration).sum) ++ ("s")
  | .ShuffleDecorator inner => inner.get_info ++ (" | 🔀 Shuffle: ON")
  | .RepeatDecorator inner n =>
      inner.get_info ++ (" | 🔁 Repeat: ") ++ toString n ++ ("x")
  | .AnalyticsDecorator inner pc tt =>
      inner.get_info ++ (" | 📊 Plays: ") ++ toString pc ++
        (", Total time: ") ++ formatFixed1 tt ++ ("s")

/-- The dictionary returned by `AnalyticsDecorator.get_analytics`. -/
structure AnalyticsReport where
  play_count : Int
  total_listening_time : ℚ
  average_session_time : ℚ
deriving DecidableEq

/-- `AnalyticsDecorator.get_analytics`: `avg_session =
total_listening_time / max(1, play_count)`; the reported time values are
rounded to one decimal place as in the source. -/
def AnalyticsDecorator.get_analytics (play_count : Int)
    (total_listening_time : ℚ) : AnalyticsReport :=
  let avg_session := total_listening_time / ((max 1 play_count : Int) : ℚ)
  { play_count := play_count,
    total_listening_time := round1 total_listening_time,
    average_session_time := round1 avg_session }

/-- Top level `play_count` field of an `AnalyticsDecorator` (0 otherwise). -/
def Playlist.play_count : Playlist → Int
  | .AnalyticsDecorator _ pc _ => pc
  | _ => 0

/-- Top level `total_listening_time` field of an `AnalyticsDecorator`
(0 otherwise). -/
def Playlist.total_listening_time : Playlist → ℚ
  | .AnalyticsDecorator _ _ tt => tt
  | _ => 0

/-- Swap the elements at positions `i` and `j` of a list (one iteration of
the CPython `random.shuffle` loop body `x[i], x[j] = x[j], x[i]`); out of
range indices leave the list unchanged (they never occur in `shuffleStep`). -/
def swapAt (xs : List Song) (i j : Nat) : List Song :=
  match xs[i]?, xs[j]? with
  | some a, some b => (xs.set i b).set j a
  | _, _ => xs

/-- The CPython `random.shuffle` loop, `for i in reversed(range(1, len(x)))`:
the argument `k` counts the remaining iterations, so the call with `k = i`
swaps position `i` with `j = _randbelow(i+1)`, modelled as
`rand pos % (i+1)`, then continues with `i-1`.  `pos` indexes the stream of
raw random draws. -/
def shuffleStep (rand : Nat → Nat) : Nat → Nat → List Song → List Song
  | _, 0, xs => xs
  | pos, Nat.succ i, xs =>
      shuffleStep rand (pos + 1) i (swapAt xs (i + 1) (rand pos % (i + 2)))

/-- External oracles of a run: the stream of raw random draws consumed by
`random.shuffle` and the stream of `time.time()` readings. -/
structure Env where
  randStream : Nat → Nat
  clock : Nat → ℚ

/-- The mutable state threaded through a run: the `MusicPlayer` singleton
plus the number of random draws and clock readings consumed so far. -/
structure Sys where
  player : MusicPlayer
  randPos : Nat
  timePos : Nat
deriving DecidableEq

/-- The `for song in songs: player.play(song); time.sleep(0.2)` loop shared
by `BasicPlaylist.play_all` and `ShuffleDecorator.play_all`. -/
def playLoop (p : MusicPlayer) : List Song → MusicPlayer × List Event
  | [] => (p, [])
  | s :: rest =>
      let r1 := p.play s
      let r2 := playLoop r1.1 rest
      (r2.1, r1.2 ++ Event.sleep ((0.2 : ℚ)) :: r2.2)

/-- The `for i in range(repeat_count)` loop of `RepeatDecorator.play_all`:
run `playFn` once per remaining round, inserting the
`time.sleep(0.3)` pause after every round except the last
(`if i < self.repeat_count - 1`). -/
def repeatRounds (playFn : Playlist → Sys → Playlist × Sys × List Event) :
    Nat → Playlist → Sys → Playlist × Sys × List Event
  | 0, pl, st => (pl, st, [])
  | 1, pl, st => playFn pl st
  | Nat.succ (Nat.succ k), pl, st =>
      let r1 := playFn pl st
      let r2 := repeatRounds playFn (Nat.succ k) r1.1 r1.2.1
      (r2.1, r2.2.1, r1.2.2 ++ Event.sleep ((0.3 : ℚ)) :: r2.2.2)

/-- Fuel indexed interpreter for `play_all`.  The fuel only bounds the
decorator nesting depth (`RepeatDecorator` and `AnalyticsDecorator` call
`self._playlist.play_all()`); `Playlist.play_all` below instantiates it with
enough fuel, so the `0` case is never reached from there.
* `BasicPlaylist.play_all` plays each song in order through the player.
* `ShuffleDecorator.play_all` takes `self.get_songs()`, shuffles the copy in
  place with `random.shuffle`, and plays the shuffled list through the player
  directly, never calling the inner `play_all` and never writing to the inner
  playlist.
* `RepeatDecorator.play_all` runs the inner `play_all` once per round.
* `AnalyticsDecorator.play_all` reads the clock, delegates, reads the clock
  again, increments `play_count` and adds the elapsed time to
  `total_listening_time`. -/
def play_allF (env : Env) : Nat → Playlist → Sys → Playlist × Sys × List Event
  | 0, pl, st => (pl, st, [])
  | Nat.succ f, pl, st =>
      match pl with
      | .BasicPlaylist name songs =>
          let r := playLoop st.player songs
          (.BasicPlaylist name songs, { st with player := r.1 }, r.2)
      | .ShuffleDecorator inner =>
          let songs := inner.get_songs
          let shuffled :=
            shuffleStep env.randStream st.randPos (songs.length - 1) songs
          let st1 := { st with randPos := st.randPos + (songs.length - 1) }
          let r := playLoop st1.player shuffled
          (.ShuffleDecorator inner, { st1 with player := r.1 }, r.2)
      | .RepeatDecorator inner n =>
          let r :=
            repeatRounds (fun pl2 st2 => play_allF env f pl2 st2)
              n.toNat inner st
          (.RepeatDecorator r.1 n, r.2.1, r.2.2)
      | .AnalyticsDecorator inner pc tt =>
          let t0 := env.clock st.timePos
          let st1 := { st with timePos := st.timePos + 1 }
          let r := play_allF env f inner st1
          let t1 := env.clock r.2.1.timePos
          let st2 := { r.2.1 with timePos := r.2.1.timePos + 1 }
          (.AnalyticsDecorator r.1 (pc + 1) (tt + (t1 - t0)), st2, r.2.2)

/-- `play_all` on any playlist object: the interpreter run with enough fuel
for the whole decorator chain. -/
def Playlist.play_all (env : Env) (pl : Playlist) (st : Sys) :
    Playlist × Sys × List Event :=
  play_allF env (pl.depth + 1) pl st

/-- `n` successive top level calls of `play_all` on an evolving playlist
object, returning the final playlist, the final state, and the event trace of
each call separately. -/
def playRounds (env : Env) : Nat → Playlist → Sys → Playlist × Sys × List (List Event)
  | 0, pl, st => (pl, st, [])
  | Nat.succ k, pl, st =>
      let r1 := Playlist.play_all env pl st
      let r2 := playRounds env k r1.1 r1.2.1
      (r2.1, r2.2.1, r1.2.2 :: r2.2.2)

/-- The songs of the `played` events of a trace, in order. -/
def playedSongs (evs : List Event) : List Song :=
  evs.filterMap fun e =>
    match e with
    | .played s _ => some s
    | _ => none

/-! Lemmas about the embedded operations. -/

theorem set_of_getElem? (xs : List Song) (n : Nat) (a : Song)
    (h : xs[n]? = some a) : xs.set n a = xs := by
  induction xs generalizing n with
  | nil => simp at h
  | cons x t ih =>
      cases n with
      | zero =>
          simp at h
          simp [List.set, h]
      | succ m =>
          simp at h
          simp [List.set, ih m h]

theorem count_set_add (xs : List Song) (a b c : Song) (n : Nat)
    (h : xs[n]? = some a) :
    (xs.set n b).count c + (if a = c then 1 else 0) =
      xs.count c + (if b = c then 1 else 0) := by
  induction xs generalizing n with
  | nil => simp at h
  | cons x t ih =>
      cases n with
      | zero =>
          simp at h
          subst h
          simp [List.set, List.count_cons]
          omega
      | succ m =>
          simp at h
          have ih2 := ih m h
          simp [List.set, List.count_cons]
          omega

theorem swapAt_perm (xs : List Song) (i j : Nat) :
    (swapAt xs i j).Perm xs := by
  unfold swapAt
  cases hi : xs[i]? with
  | none => exact List.Perm.refl xs
  | some a =>
      cases hj : xs[j]? with
      | none => exact List.Perm.refl xs
      | some b =>
          show ((xs.set i b).set j a).Perm xs
          by_cases hij : i = j
          · subst hij
            rw [List.set_set]
            rw [hi] at hj
            cases hj
            rw [set_of_getElem? xs i a hi]
          · apply List.perm_iff_count.mpr
            intro c
            have hj2 : (xs.set i b)[j]? = some b := by
              rw [List.getElem?_set_ne hij, hj]
            have h1 := count_set_add xs a b c i hi
            have h2 := count_set_add (xs.set i b) b a c j hj2
            omega

theorem shuffleStep_perm (rand : Nat → Nat) (pos k : Nat) (xs : List Song) :
    (shuffleStep rand pos k xs).Perm xs := by
  induction k generalizing pos xs with
  | zero => exact List.Perm.refl xs
  | succ i ih =>
      exact (ih (pos + 1) (swapAt xs (i + 1) (rand pos % (i + 2)))).trans
        (swapAt_perm xs (i + 1) (rand pos % (i + 2)))

theorem play_preserves_strategy (p : MusicPlayer) (s : Song) :
    ((p.play s).1).playback_strategy = p.playback_strategy := by
  cases h : p.playback_strategy <;> simp [MusicPlayer.play, h]

theorem play_events_congr (p q : MusicPlayer) (s : Song)
    (h : p.playback_strategy = q.playback_strategy) :
    (p.play s).2 = (q.play s).2 := by
  cases hq : q.playback_strategy <;>
    simp [MusicPlayer.play, h, hq]

theorem playLoop_strategy (songs : List Song) (p : MusicPlayer) :
    ((playLoop p songs).1).playback_strategy = p.playback_strategy := by
  induction songs generalizing p with
  | nil => rfl
  | cons s rest ih =>
      simp only [playLoop]
      rw [ih, play_preserves_strategy]

theorem playLoop_events (p : MusicPlayer) (songs : List Song) :
    (playLoop p songs).2 =
      (songs.map fun s => (p.play s).2 ++ [Event.sleep ((0.2 : ℚ))]).flatten := by
  induction songs generalizing p with
  | nil => rfl
  | cons s rest ih =>
      simp only [playLoop, List.map_cons, List.flatten_cons]
      rw [ih ((p.play s).1)]
      have hmap : ∀ t : Song, (((p.play s).1).play t).2 = (p.play t).2 :=
        fun t => play_events_congr _ _ t (play_preserves_strategy p s)
      simp [hmap]

theorem playLoop_events_none (p : MusicPlayer) (songs : List Song)
    (h : p.playback_strategy = none) :
    (playLoop p songs).2 =
      (songs.map fun _ => [Event.noStrategy, Event.sleep ((0.2 : ℚ))]).flatten := by
  rw [playLoop_events]
  have hplay : ∀ s : Song, (p.play s).2 = [Event.noStrategy] := by
    intro s
    simp [MusicPlayer.play, h]
  simp [hplay]

theorem playLoop_events_some (p : MusicPlayer) (songs : List Song)
    (strat : PlaybackStrategy) (h : p.playback_strategy = some strat) :
    (playLoop p songs).2 =
      (songs.map fun s =>
        [Event.played s strat, Event.sleep ((0.2 : ℚ))]).flatten := by
  rw [playLoop_events]
  have hplay : ∀ s : Song, (p.play s).2 = [Event.played s strat] := by
    intro s
    simp [MusicPlayer.play, h]
  simp [hplay]

theorem playedSongs_blocks (songs : List Song) (strat : PlaybackStrategy) :
    playedSongs
      ((songs.map fun s =>
        [Event.played s strat, Event.sleep ((0.2 : ℚ))]).flatten) = songs := by
  induction songs with
  | nil => rfl
  | cons s rest ih =>
      simp only [List.map_cons, List.flatten_cons, playedSongs,
        List.filterMap_append] at ih ⊢
      rw [ih]
      rfl

theorem count_noStrategy_blocks (songs : List Song) :
    ((songs.map fun _ =>
      [Event.noStrategy, Event.sleep ((0.2 : ℚ))]).flatten).count
        Event.noStrategy = songs.length := by
  induction songs with
  | nil => rfl
  | cons s rest ih =>
      simp only [List.map_cons, List.flatten_cons, List.count_append, ih]
      simp [List.count_cons]
      omega

theorem repeatRounds_depth
    (playFn : Playlist → Sys → Playlist × Sys × List Event)
    (h : ∀ pl st, ((playFn pl st).1).depth = pl.depth) :
    ∀ (k : Nat) (pl : Playlist) (st : Sys),
      ((repeatRounds playFn k pl st).1).depth = pl.depth := by
  intro k
  induction k with
  | zero => intro pl st; rfl
  | succ k ih =>
      intro pl st
      cases k with
      | zero => exact h pl st
      | succ k2 =>
          show ((repeatRounds playFn (k2 + 1)
            (playFn pl st).1 ((playFn pl st).2.1)).1).depth = pl.depth
          rw [ih, h]

theorem play_allF_depth (env : Env) :
    ∀ (f : Nat) (pl : Playlist) (st : Sys),
      ((play_allF env f pl st).1).depth = pl.depth := by
  intro f
  induction f with
  | zero => intro pl st; rfl
  | succ f ih =>
      intro pl st
      cases pl with
      | BasicPlaylist name songs => rfl
      | ShuffleDecorator inner => rfl
      | RepeatDecorator inner n =>
          have hdep := repeatRounds_depth
            (fun pl2 st2 => play_allF env f pl2 st2)
            (fun pl2 st2 => ih pl2 st2) n.toNat inner st
          show (Playlist.RepeatDecorator (repeatRounds
            (fun pl2 st2 => play_allF env f pl2 st2) n.toNat inner st).1
              n).depth = _
          simp [Playlist.depth, hdep]
      | AnalyticsDecorator inner pc tt =>
          show ((play_allF env f inner
            { st with timePos := st.timePos + 1 }).1).depth + 1 = _
          rw [ih]
          rfl

theorem play_all_depth (env : Env) (pl : Playlist) (st : Sys) :
    ((Playlist.play_all env pl st).1).depth = pl.depth :=
  play_allF_depth env (pl.depth + 1) pl st

theorem repeatRounds_congr
    (f g : Playlist → Sys → Playlist × Sys × List Event) (d : Nat)
    (hf : ∀ pl st, pl.depth = d → f pl st = g pl st)
    (hg : ∀ pl st, ((g pl st).1).depth = pl.depth) :
    ∀ (k : Nat) (pl : Playlist) (st : Sys), pl.depth = d →
      repeatRounds f k pl st = repeatRounds g k pl st := by
  intro k
  induction k with
  | zero => intro pl st _; rfl
  | succ k ih =>
      intro pl st hd
      cases k with
      | zero => exact hf pl st hd
      | succ k2 =>
          show ((repeatRounds f (k2 + 1) (f pl st).1 ((f pl st).2.1)).1,
            _, _) = _
          rw [hf pl st hd, ih ((g pl st).1) ((g pl st).2.1)
            ((hg pl st).trans hd)]
          rfl

/-- Unfolding of `play_all` on a base playlist. -/
theorem play_all_basic (env : Env) (name : String) (songs : List Song)
    (st : Sys) :
    Playlist.play_all env (.BasicPlaylist name songs) st =
      (.BasicPlaylist name songs,
       { st with player := (playLoop st.player songs).1 },
       (playLoop st.player songs).2) := rfl

/-- Unfolding of `play_all` on a `ShuffleDecorator`. -/
theorem play_all_shuffle (env : Env) (inner : Playlist) (st : Sys) :
    Playlist.play_all env (.ShuffleDecorator inner) st =
      (.ShuffleDecorator inner,
       { st with
          randPos := st.randPos + (inner.get_songs.length - 1),
          player := (playLoop st.player
            (shuffleStep env.randStream st.randPos
              (inner.get_songs.length - 1) inner.get_songs)).1 },
       (playLoop st.player
         (shuffleStep env.randStream st.randPos
           (inner.get_songs.length - 1) inner.get_songs)).2) := rfl

/-- Unfolding of `play_all` on an `AnalyticsDecorator`: it delegates one full
`play_all` to the inner object and then updates its two counters. -/
theorem play_all_analytics (env : Env) (inner : Playlist) (pc : Int) (tt : ℚ)
    (st : Sys) :
    Playlist.play_all env (.AnalyticsDecorator inner pc tt) st =
      (.AnalyticsDecorator
        (Playlist.play_all env inner { st with timePos := st.timePos + 1 }).1
        (pc + 1)
        (tt + (env.clock (Playlist.play_all env inner
            { st with timePos := st.timePos + 1 }).2.1.timePos -
          env.clock st.timePos)),
       { (Playlist.play_all env inner
            { st with timePos := st.timePos + 1 }).2.1 with
          timePos := (Playlist.play_all env inner
            { st with timePos := st.timePos + 1 }).2.1.timePos + 1 },
       (Playlist.play_all env inner
         { st with timePos := st.timePos + 1 }).2.2) := rfl

/-- Unfolding of `play_all` on a `RepeatDecorator`: the round loop runs the
full top level `play_all` of the inner object once per round. -/
theorem play_all_repeat (env : Env) (inner : Playlist) (n : Int) (st : Sys) :
    Playlist.play_all env (.RepeatDecorator inner n) st =
      (.RepeatDecorator
        (repeatRounds (Playlist.play_all env) n.toNat inner st).1 n,
       (repeatRounds (Playlist.play_all env) n.toNat inner st).2.1,
       (repeatRounds (Playlist.play_all env) n.toNat inner st).2.2) := by
  have hcong := repeatRounds_congr
    (fun pl2 st2 => play_allF env (inner.depth + 1) pl2 st2)
    (Playlist.play_all env) inner.depth
    (fun pl2 st2 h2 => by rw [Playlist.play_all, h2])
    (fun pl2 st2 => play_all_depth env pl2 st2)
    n.toNat inner st rfl
  show (Playlist.RepeatDecorator
      (repeatRounds (fun pl2 st2 => play_allF env (inner.depth + 1) pl2 st2)
        n.toNat inner st).1 n,
    (repeatRounds (fun pl2 st2 => play_allF env (inner.depth + 1) pl2 st2)
      n.toNat inner st).2.1,
    (repeatRounds (fun pl2 st2 => play_allF env (inner.depth + 1) pl2 st2)
      n.toNat inner st).2.2) = _
  rw [hcong]

theorem intercalate_single (s x : List Event) :
    List.intercalate s [x] = x := by
  simp [List.intercalate, List.intersperse]

theorem intercalate_single_sep_cons (p : Event) (a : List Event)
    (l : List (List Event)) (h : l ≠ []) :
    List.intercalate [p] (a :: l) = a ++ p :: List.intercalate [p] l := by
  cases l with
  | nil => exact absurd rfl h
  | cons b t => simp [List.intercalate, List.intersperse]

theorem playRounds_length (env : Env) :
    ∀ (k : Nat) (pl : Playlist) (st : Sys),
      ((playRounds env k pl st).2.2).length = k := by
  intro k
  induction k with
  | zero => intro pl st; rfl
  | succ k ih =>
      intro pl st
      show ((Playlist.play_all env pl st).2.2 ::
        (playRounds env k (Playlist.play_all env pl st).1
          ((Playlist.play_all env pl st).2.1)).2.2).length = k + 1
      rw [List.length_cons, ih]

/-- The repeat loop over the top level `play_all`, for at least one round, is
exactly `k` sequential `play_all` calls with the 0.3 second pause interposed
between consecutive rounds and after none other. -/
theorem repeatRounds_eq_playRounds (env : Env) :
    ∀ (k : Nat) (pl : Playlist) (st : Sys), 1 ≤ k →
      repeatRounds (Playlist.play_all env) k pl st =
        ((playRounds env k pl st).1, (playRounds env k pl st).2.1,
         List.intercalate [Event.sleep ((0.3 : ℚ))]
           (playRounds env k pl st).2.2) := by
  intro k
  induction k with
  | zero => intro pl st h; omega
  | succ k ih =>
      intro pl st _
      cases k with
      | zero =>
          rw [show (playRounds env (0 + 1) pl st).2.2 =
            [(Playlist.play_all env pl st).2.2] from rfl, intercalate_single]
          rfl
      | succ k2 =>
          have ihr := ih (Playlist.play_all env pl st).1
            ((Playlist.play_all env pl st).2.1) (by omega)
          have hne : (playRounds env (k2 + 1) (Playlist.play_all env pl st).1
              ((Playlist.play_all env pl st).2.1)).2.2 ≠ [] := by
            have hl := playRounds_length env (k2 + 1)
              (Playlist.play_all env pl st).1
              ((Playlist.play_all env pl st).2.1)
            intro hnil
            rw [hnil] at hl
            simp at hl
          show ((repeatRounds (Playlist.play_all env) (k2 + 1)
              (Playlist.play_all env pl st).1
              ((Playlist.play_all env pl st).2.1)).1,
            (repeatRounds (Playlist.play_all env) (k2 + 1)
              (Playlist.play_all env pl st).1
              ((Playlist.play_all env pl st).2.1)).2.1,
            (Playlist.play_all env pl st).2.2 ++ Event.sleep ((0.3 : ℚ)) ::
              (repeatRounds (Playlist.play_all env) (k2 + 1)
                (Playlist.play_all env pl st).1
                ((Playlist.play_all env pl st).2.1)).2.2) = _
          rw [ihr]
          rw [show (playRounds env (k2 + 1 + 1) pl st).2.2 =
            (Playlist.play_all env pl st).2.2 ::
              (playRounds env (k2 + 1) (Playlist.play_all env pl st).1
                ((Playlist.play_all env pl st).2.1)).2.2 from rfl]
          rw [intercalate_single_sep_cons _ _ _ hne]
          rfl

theorem playRounds_analytics_count (env : Env) :
    ∀ (N : Nat) (inner : Playlist) (pc : Int) (tt : ℚ) (st : Sys),
      ((playRounds env N (.AnalyticsDecorator inner pc tt) st).1).play_count =
        pc + N := by
  intro N
  induction N with
  | zero =>
      intro inner pc tt st
      show (Playlist.AnalyticsDecorator inner pc tt).play_count = pc + 0
      simp [Playlist.play_count]
  | succ N ih =>
      intro inner pc tt st
      show ((playRounds env N
        (Playlist.play_all env (.AnalyticsDecorator inner pc tt) st).1
        ((Playlist.play_all env (.AnalyticsDecorator inner pc tt) st).2.1)).1).play_count =
          pc + (N + 1 : Nat)
      rw [play_all_analytics]
      rw [ih]
      push_cast
      ring

theorem accessSeq_stable (i : Nat) :
    ∀ (k : Nat) (cls : MusicPlayerClass), cls._instance = some i →
      accessSeq cls k = (cls, List.replicate k i) := by
  intro k
  induction k with
  | zero => intro cls h; rfl
  | succ k ih =>
      intro cls h
      show ((accessSeq (MusicPlayer.new cls).1 k).1,
        (MusicPlayer.new cls).2 :: (accessSeq (MusicPlayer.new cls).1 k).2) = _
      have hnew : MusicPlayer.new cls = (cls, i) := by
        simp [MusicPlayer.new, h]
      rw [hnew, ih cls h]
      rfl

/-! ### Concrete fixtures used by the witness theorems. -/

def songA : Song :=
  { title := ("Test Song 1"), artist := ("Test Artist"), duration := 180,
    format_type := ("mp3") }

def songB : Song :=
  { title := ("Test Song 2"), artist := ("Another Artist"), duration := 200,
    format_type := ("mp3") }

def plW : Playlist := .BasicPlaylist ("My Favorites") [songA, songB]

def envW : Env := { randStream := fun k => k + 1, clock := fun k => (k : ℚ) }

def stW : Sys :=
  { player :=
      { MusicPlayer.initState with
          playback_strategy := some PlaybackStrategy.mp3 },
    randPos := 0, timePos := 0 }

def stN : Sys := { player := MusicPlayer.initState, randPos := 0, timePos := 0 }

def songsDemo : List Song :=
  [{ title := ("Bohemian Rhapsody"), artist := ("Queen"), duration := 355,
     format_type := ("flac") },
   { title := ("Stairway to Heaven"), artist := ("Led Zeppelin"),
     duration := 482, format_type := ("mp3") },
   { title := ("Hotel California"), artist := ("Eagles"), duration := 391,
     format_type := ("streaming") }]

def songUnknown : Song :=
  { title := ("Mystery"), artist := ("Nobody"), duration := 10,
    format_type := ("wav") }

/-! ### Claim theorems. -/

/-- C1: for every playlist wrapped in `ShuffleDecorator`, `play_all` leaves
the wrapped playlist object (hence the stored track sequence of the inner
playlist) completely unchanged, and, whenever a playback strategy is set,
the sequence of tracks actually played is a permutation of the tracks of the
inner playlist — no track lost or duplicated, only the order varies. -/
theorem shuffle_play_all_permutes (env : Env) (inner : Playlist) (st : Sys) :
    (Playlist.play_all env (.ShuffleDecorator inner) st).1 =
      .ShuffleDecorator inner
    ∧ ∀ strat : PlaybackStrategy,
        st.player.playback_strategy = some strat →
          (playedSongs
            (Playlist.play_all env (.ShuffleDecorator inner) st).2.2).Perm
            inner.get_songs := by
  constructor
  · rw [play_all_shuffle]
  · intro strat h
    rw [play_all_shuffle]
    show (playedSongs (playLoop st.player
      (shuffleStep env.randStream st.randPos
        (inner.get_songs.length - 1) inner.get_songs)).2).Perm _
    rw [playLoop_events_some _ _ strat h, playedSongs_blocks]
    exact shuffleStep_perm env.randStream st.randPos
      (inner.get_songs.length - 1) inner.get_songs

/-- Witness for C1 at a concrete two track playlist with the MP3 strategy
set. -/
theorem shuffle_play_all_permutes_witness :
    stW.player.playback_strategy = some PlaybackStrategy.mp3 ∧
      (playedSongs
        (Playlist.play_all envW (.ShuffleDecorator plW) stW).2.2).Perm
        plW.get_songs :=
  ⟨rfl, (shuffle_play_all_permutes envW plW stW).2 PlaybackStrategy.mp3 rfl⟩

/-- C2: for every `RepeatDecorator` with positive `repeat_count` n, one call
of its `play_all` is exactly n sequential top level `play_all` calls on the
inner object (`playRounds` lists the n calls and their traces), with the
simulated 0.3 second pause between consecutive repetitions and not after the
last one. -/
theorem repeat_play_all_rounds (env : Env) (inner : Playlist) (n : Int)
    (st : Sys) (hn : 0 < n) :
    Playlist.play_all env (.RepeatDecorator inner n) st =
      (.RepeatDecorator (playRounds env n.toNat inner st).1 n,
       (playRounds env n.toNat inner st).2.1,
       List.intercalate [Event.sleep ((0.3 : ℚ))]
         (playRounds env n.toNat inner st).2.2)
    ∧ ((playRounds env n.toNat inner st).2.2).length = n.toNat := by
  have h1 : 1 ≤ n.toNat := by omega
  constructor
  · rw [play_all_repeat, repeatRounds_eq_playRounds env n.toNat inner st h1]
  · exact playRounds_length env n.toNat inner st

/-- Witness for C2 with `repeat_count = 2` on a concrete playlist. -/
theorem repeat_play_all_rounds_witness :
    (0 : Int) < 2 ∧
      (Playlist.play_all envW (.RepeatDecorator plW 2) stW =
        (.RepeatDecorator (playRounds envW (Int.toNat 2) plW stW).1 2,
         (playRounds envW (Int.toNat 2) plW stW).2.1,
         List.intercalate [Event.sleep ((0.3 : ℚ))]
           (playRounds envW (Int.toNat 2) plW stW).2.2)
       ∧ ((playRounds envW (Int.toNat 2) plW stW).2.2).length = Int.toNat 2) :=
  ⟨by decide, repeat_play_all_rounds envW plW 2 stW (by decide)⟩

/-- C3: `get_analytics` always divides by `max 1 play_count` (a strictly
positive divisor, so never by zero); in the fresh state (0 plays) the
reported average is 0; and after N ≥ 1 calls of `play_all` starting from a
fresh `AnalyticsDecorator`, `play_count = N` and the reported average is
`total_time / N` (rounded to one decimal place, exactly as the source rounds
the values it returns). -/
theorem analytics_average_division (env : Env) (inner : Playlist) (st : Sys)
    (N : Nat) (pc : Int) (tt : ℚ) :
    ((AnalyticsDecorator.get_analytics pc tt).average_session_time =
        round1 (tt / ((max 1 pc : Int) : ℚ))
      ∧ (0 : ℚ) < ((max 1 pc : Int) : ℚ))
    ∧ (AnalyticsDecorator.get_analytics 0 0).average_session_time = 0
    ∧ ((playRounds env N (.AnalyticsDecorator inner 0 0) st).1).play_count =
        (N : Int)
    ∧ (1 ≤ N →
        (AnalyticsDecorator.get_analytics
          ((playRounds env N (.AnalyticsDecorator inner 0 0) st).1).play_count
          ((playRounds env N
            (.AnalyticsDecorator inner 0 0) st).1).total_listening_time).average_session_time =
          round1 (((playRounds env N
            (.AnalyticsDecorator inner 0 0) st).1).total_listening_time /
              (N : ℚ))) := by
  have hcount : ((playRounds env N
      (.AnalyticsDecorator inner 0 0) st).1).play_count = (N : Int) := by
    have h := playRounds_analytics_count env N inner 0 0 st
    rw [h]
    ring
  refine ⟨⟨rfl, ?_⟩, ?_, hcount, ?_⟩
  · exact_mod_cast (by omega : (0 : Int) < max 1 pc)
  · have h1 : roundHalfEven 0 = 0 := by simp [roundHalfEven]
    have hall : round1 ((0 : ℚ)) = 0 := by simp [round1, h1]
    show round1 ((0 : ℚ) / ((max 1 (0 : Int) : Int) : ℚ)) = 0
    have hm : ((max 1 (0 : Int) : Int) : ℚ) = 1 := by norm_num
    rw [hm]
    simpa using hall
  · intro hN
    rw [hcount]
    have hmax : (max 1 (N : Int) : Int) = (N : Int) := by omega
    show round1 (((playRounds env N
      (.AnalyticsDecorator inner 0 0) st).1).total_listening_time /
        ((max 1 (N : Int) : Int) : ℚ)) = _
    rw [hmax]
    norm_cast

/-- Witness for C3 with N = 2 plays of a concrete playlist. -/
theorem analytics_average_division_witness :
    1 ≤ 2 ∧
      (AnalyticsDecorator.get_analytics
        ((playRounds envW 2 (.AnalyticsDecorator plW 0 0) stW).1).play_count
        ((playRounds envW 2
          (.AnalyticsDecorator plW 0 0) stW).1).total_listening_time).average_session_time =
        round1 (((playRounds envW 2
          (.AnalyticsDecorator plW 0 0) stW).1).total_listening_time /
            ((2 : Nat) : ℚ)) :=
  ⟨by decide,
   (analytics_average_division envW plW stW 2 0 0).2.2.2 (by decide)⟩

/-- C4: `MusicPlayer.play` with no strategy set reports the user visible
failure message and returns with every field of the player unchanged (it is
a total function, so no exception is possible); with a strategy set it
stores the song as `current_song`, sets `is_playing`, and invokes the
play behaviour of the strategy on the song. -/
theorem player_play_strategy_cases (p : MusicPlayer) (song : Song) :
    (p.playback_strategy = none →
      MusicPlayer.play p song = (p, [Event.noStrategy]))
    ∧ ∀ strat : PlaybackStrategy, p.playback_strategy = some strat →
        MusicPlayer.play p song =
          ({ p with current_song := some song, is_playing := true },
           [Event.played song strat]) := by
  constructor
  · intro h
    simp [MusicPlayer.play, h]
  · intro strat h
    simp [MusicPlayer.play, h]

/-- Witness for C4 on the freshly initialised player (no strategy) and on a
player with the FLAC strategy set. -/
theorem player_play_strategy_cases_witness :
    MusicPlayer.play MusicPlayer.initState songA =
      (MusicPlayer.initState, [Event.noStrategy])
    ∧ MusicPlayer.play
        { MusicPlayer.initState with
            playback_strategy := some PlaybackStrategy.flac } songA =
      ({ MusicPlayer.initState with
          playback_strategy := some PlaybackStrategy.flac,
          current_song := some songA, is_playing := true },
       [Event.played songA PlaybackStrategy.flac]) :=
  ⟨(player_play_strategy_cases MusicPlayer.initState songA).1 rfl,
   (player_play_strategy_cases
     { MusicPlayer.initState with
         playback_strategy := some PlaybackStrategy.flac } songA).2
     PlaybackStrategy.flac rfl⟩

/-- C5: every sequence of `MusicPlayer()` accesses from the initial class
state returns the identity of the one object created on first access
(`List.replicate n 0`: all returned instances are reference identical), and
at most one underlying object is ever created. -/
theorem singleton_accesses_identical (n : Nat) :
    (accessSeq initialClass n).2 = List.replicate n 0
    ∧ (accessSeq initialClass n).1.created ≤ 1 := by
  cases n with
  | zero => exact ⟨rfl, by decide⟩
  | succ n =>
      have hstable := accessSeq_stable 0 n
        { _instance := some 0, created := 1 } rfl
      constructor
      · show (MusicPlayer.new initialClass).2 ::
          (accessSeq (MusicPlayer.new initialClass).1 n).2 = _
        rw [show MusicPlayer.new initialClass =
          ({ _instance := some 0, created := 1 }, 0) from rfl, hstable]
        rfl
      · show (accessSeq (MusicPlayer.new initialClass).1 n).1.created ≤ 1
        rw [show MusicPlayer.new initialClass =
          ({ _instance := some 0, created := 1 }, 0) from rfl, hstable]

/-- C6: `set_volume` stores exactly the input clamped into [0, 100]: inputs
below 0 store 0, inputs above 100 store 100, in-range inputs are stored
unmodified, and no input is ever rejected. -/
theorem set_volume_clamps (p : MusicPlayer) (v : Int) :
    (MusicPlayer.set_volume p v).volume = max 0 (min 100 v)
    ∧ (v ≤ 0 → (MusicPlayer.set_volume p v).volume = 0)
    ∧ (100 ≤ v → (MusicPlayer.set_volume p v).volume = 100)
    ∧ (0 ≤ v → v ≤ 100 → (MusicPlayer.set_volume p v).volume = v) := by
  refine ⟨rfl, ?_, ?_, ?_⟩
  · intro h
    show max 0 (min 100 v) = 0
    omega
  · intro h
    show max 0 (min 100 v) = 100
    omega
  · intro h1 h2
    show max 0 (min 100 v) = v
    omega

/-- Witness for C6 at the example inputs -5, 150 and 42 from the spec. -/
theorem set_volume_clamps_witness :
    ((-5 : Int) ≤ 0 ∧
      (MusicPlayer.set_volume MusicPlayer.initState (-5)).volume = 0)
    ∧ ((100 : Int) ≤ 150 ∧
      (MusicPlayer.set_volume MusicPlayer.initState 150).volume = 100)
    ∧ ((0 : Int) ≤ 42 ∧ (42 : Int) ≤ 100 ∧
      (MusicPlayer.set_volume MusicPlayer.initState 42).volume = 42) :=
  ⟨⟨by decide, (set_volume_clamps MusicPlayer.initState (-5)).2.1 (by decide)⟩,
   ⟨by decide, (set_volume_clamps MusicPlayer.initState 150).2.2.1 (by decide)⟩,
   ⟨by decide, by decide,
    (set_volume_clamps MusicPlayer.initState 42).2.2.2 (by decide) (by decide)⟩⟩

/-- C7: `BasicPlaylist.play_all` invokes the player method `play` once per track
in insertion order over all tracks (the trace is one block per track, in
order), and never exits early on coordinator failure: with no strategy set,
every track still produces its own failure message, so the number of
"no playback strategy" failures equals the number of tracks. -/
theorem basic_play_all_sequential (env : Env) (name : String)
    (songs : List Song) (st : Sys) :
    (Playlist.play_all env (.BasicPlaylist name songs) st).1 =
      .BasicPlaylist name songs
    ∧ (∀ strat : PlaybackStrategy,
        st.player.playback_strategy = some strat →
          (Playlist.play_all env (.BasicPlaylist name songs) st).2.2 =
            (songs.map fun s =>
              [Event.played s strat, Event.sleep ((0.2 : ℚ))]).flatten)
    ∧ (st.player.playback_strategy = none →
        (Playlist.play_all env (.BasicPlaylist name songs) st).2.2 =
          (songs.map fun _ =>
            [Event.noStrategy, Event.sleep ((0.2 : ℚ))]).flatten
        ∧ ((Playlist.play_all env
            (.BasicPlaylist name songs) st).2.2).count Event.noStrategy =
            songs.length) := by
  refine ⟨by rw [play_all_basic], ?_, ?_⟩
  · intro strat h
    rw [play_all_basic]
    show (playLoop st.player songs).2 = _
    exact playLoop_events_some st.player songs strat h
  · intro h
    rw [play_all_basic]
    show (playLoop st.player songs).2 = _ ∧
      ((playLoop st.player songs).2).count Event.noStrategy = songs.length
    rw [playLoop_events_none st.player songs h]
    exact ⟨rfl, count_noStrategy_blocks songs⟩

/-- Witness for C7: playing a two track playlist with no strategy set still
attempts (and fails) both tracks. -/
theorem basic_play_all_sequential_witness :
    stN.player.playback_strategy = none ∧
      ((Playlist.play_all envW
        (.BasicPlaylist ("My Favorites") [songA, songB]) stN).2.2 =
          ([songA, songB].map fun _ =>
            [Event.noStrategy, Event.sleep ((0.2 : ℚ))]).flatten
       ∧ ((Playlist.play_all envW
          (.BasicPlaylist ("My Favorites") [songA, songB]) stN).2.2).count
            Event.noStrategy = ([songA, songB] : List Song).length) :=
  ⟨rfl, (basic_play_all_sequential envW ("My Favorites") [songA, songB]
    stN).2.2 rfl⟩

/-- C8: `get_info` on a base playlist reports the number of tracks and the
total duration as the sum of all track durations; with durations
[355, 482, 391] that total is 1228 seconds. -/
theorem basic_get_info_totals (name : String) (songs : List Song) :
    Playlist.get_info (.BasicPlaylist name songs) =
      ("Playlist: ") ++ name ++ (" | Songs: ") ++ toString songs.length ++
        (" | Duration: ") ++ toString ((songs.map Song.duration).sum) ++ ("s")
    ∧ (songs.map Song.duration = [355, 482, 391] →
        (songs.map Song.duration).sum = 1228) := by
  refine ⟨rfl, ?_⟩
  intro h
  rw [h]
  decide

/-- Witness for C8 at the demo playlist with durations [355, 482, 391]. -/
theorem basic_get_info_totals_witness :
    songsDemo.map Song.duration = [355, 482, 391] ∧
      (songsDemo.map Song.duration).sum = 1228 :=
  ⟨rfl, (basic_get_info_totals ("Classic Rock Hits") songsDemo).2 rfl⟩

/-- C9: a track whose format tag is none of "mp3", "flac", "streaming" is
assigned the default MP3 (lossy compressed) strategy by the
`strategies.get` lookup with the MP3 entry as default; no tag is rejected. -/
theorem unknown_format_selects_default (song : Song)
    (h1 : song.format_type ≠ ("mp3")) (h2 : song.format_type ≠ ("flac"))
    (h3 : song.format_type ≠ ("streaming")) :
    MusicStreamingSystem.select_strategy song = PlaybackStrategy.mp3 := by
  have b1 : (song.format_type == ("mp3")) = false := by simp [h1]
  have b2 : (song.format_type == ("flac")) = false := by simp [h2]
  have b3 : (song.format_type == ("streaming")) = false := by simp [h3]
  simp [MusicStreamingSystem.select_strategy, MusicStreamingSystem.strategies,
    List.lookup, b1, b2, b3]

/-- Witness for C9 at a track with format tag "wav". -/
theorem unknown_format_selects_default_witness :
    songUnknown.format_type ≠ ("mp3") ∧ songUnknown.format_type ≠ ("flac") ∧
      songUnknown.format_type ≠ ("streaming") ∧
      MusicStreamingSystem.select_strategy songUnknown =
        PlaybackStrategy.mp3 :=
  ⟨by decide, by decide, by decide,
   unknown_format_selects_default songUnknown (by decide) (by decide)
     (by decide)⟩

/-- C10: a `RepeatDecorator` accepts a zero or negative `repeat_count`
without any error (construction and playback are total), and its `play_all`
then runs the inner `play_all` zero times, produces no events, and returns
with the playlist and the system state unchanged. -/
theorem repeat_nonpositive_plays_nothing (env : Env) (inner : Playlist)
    (n : Int) (st : Sys) (hn : n ≤ 0) :
    Playlist.play_all env (.RepeatDecorator inner n) st =
      (.RepeatDecorator inner n, st, []) := by
  have h0 : n.toNat = 0 := by omega
  rw [play_all_repeat, h0]
  rfl

/-- Witness for C10 with `repeat_count = 0`. -/
theorem repeat_nonpositive_plays_nothing_witness :
    (0 : Int) ≤ 0 ∧
      Playlist.play_all envW (.RepeatDecorator plW 0) stW =
        (.RepeatDecorator plW 0, stW, []) :=
  ⟨by decide, repeat_nonpositive_plays_nothing envW plW 0 stW (by decide)⟩

end MusicStreaming
